import Mathlib

/-!
Verification of the nexus-indexer core against its specification.

Part 1 models the `ZKProofRegistry` Solidity contract (proof commitment
registry with NFT credential minting).  Solidity mappings are modelled as
total functions with the zero default value, exactly as the EVM storage
model provides them; `require` failures (reverts) are modelled by
`Except.error`, so an erroring operation leaves the state unchanged by
construction.  `keccak256(abi.encodePacked(eventId, proofData, msg.sender,
block.timestamp))` is modelled as an injective function of its four
arguments, represented by the argument tuple itself (`Commitment`); the
`keccak256(bytes(...))` string comparison in `hasValidProofForEvent` is
correspondingly modelled as string equality.  ERC721 token ownership is
modelled by the `ownerOf` map (zero address = token does not exist), which
is what `_safeMint` reads and writes; the ERC721 metadata-URI plumbing
(`_baseTokenURI`, `tokenURI` composition) is carried only as the per-token
URI store written by `_setTokenURI`.

Part 2 models the `BlockchainManager` confirmation tracker from
`src/lib/blockchain.ts`: the `pendingTransactions` map is a function from
transaction-hash strings to optional statuses, and one invocation of
`monitorTransaction` is a function of the outcome of its awaited ledger
calls (`PollOutcome`) and the current cache.
-/

abbrev Address := Nat

/-- Commitment hash: keccak256 of the packed (eventId, proofData, msg.sender,
block.timestamp), modelled as an injective map represented by the tuple. -/
structure Commitment where
  eventId : String
  proofData : List Nat
  submitter : Address
  timestamp : Nat
deriving DecidableEq, Repr

/-- Struct `ProofCommitment` of the contract. -/
structure ProofCommitment where
  commitment : Commitment
  eventId : String
  submitter : Address
  timestamp : Nat
  isValid : Bool
  nftTokenId : Nat
deriving DecidableEq, Repr

/-- Struct `ProofMetadata` of the contract. -/
structure ProofMetadata where
  eventName : String
  eventDescription : String
  imageUri : String
  location : String
  eventDate : Nat
deriving DecidableEq, Repr

/-- Zero value of `ProofCommitment`, the default of a Solidity mapping. -/
def emptyRecord : ProofCommitment :=
  { commitment := ⟨"", [], 0, 0⟩, eventId := "", submitter := 0,
    timestamp := 0, isValid := false, nftTokenId := 0 }

/-- Zero value of `ProofMetadata`. -/
def emptyMetadata : ProofMetadata :=
  { eventName := "", eventDescription := "", imageUri := "", location := "", eventDate := 0 }

/-- Contract storage of `ZKProofRegistry`. -/
structure RegistryState where
  owner : Address
  proofCounter : Nat
  tokenIdCounter : Nat
  proofCommitments : Nat → ProofCommitment
  commitmentToProofId : Commitment → Nat
  eventMetadata : String → ProofMetadata
  userProofs : Address → List Nat
  eventProofs : String → List Nat
  ownerOf : Nat → Address
  tokenURIs : Nat → String

/-- Revert reasons of the registry operations (the `require` messages of the
contract and of the inherited ERC721 `_safeMint`). -/
inductive RegistryError where
  | EmptyEventId
  | EmptyPayload
  | DuplicateCommitment
  | InvalidProofId
  | Unauthorized
  | MintToZero
  | AlreadyMinted
deriving DecidableEq, Repr

/-- Internal `_mintNFT`: increments the token counter, binds the fresh token
id on the proof record, `_safeMint`s it to the recipient (reverting when the
recipient is the zero address or, fatally, when the token already exists),
and copies the event image URI when present. -/
def mintNFT (s : RegistryState) (proofId : Nat) (recipient : Address)
    (eventId : String) : Except RegistryError RegistryState :=
  let tokenId := s.tokenIdCounter + 1
  let s1 : RegistryState := { s with
    tokenIdCounter := tokenId,
    proofCommitments := Function.update s.proofCommitments proofId
      { s.proofCommitments proofId with nftTokenId := tokenId } }
  if recipient = 0 then .error .MintToZero
  else if s1.ownerOf tokenId ≠ 0 then .error .AlreadyMinted
  else
    let s2 : RegistryState := { s1 with
      ownerOf := Function.update s1.ownerOf tokenId recipient }
    let metadata := s2.eventMetadata eventId
    if metadata.imageUri.length ≠ 0 then
      .ok { s2 with tokenURIs := Function.update s2.tokenURIs tokenId metadata.imageUri }
    else .ok s2

/-- Operation `submitProof(eventId, proofData)`: rejects empty inputs, computes the
commitment, rejects a duplicate commitment, allocates the next proof id,
stores the record (auto-validated), updates the indexes and auto-mints the
NFT because the stored record is valid. -/
def submitProof (s : RegistryState) (sender : Address) (blockTimestamp : Nat)
    (eventId : String) (proofData : List Nat) :
    Except RegistryError (RegistryState × Nat) :=
  if eventId.length = 0 then .error .EmptyEventId
  else if proofData.length = 0 then .error .EmptyPayload
  else
    let commitment : Commitment := ⟨eventId, proofData, sender, blockTimestamp⟩
    if s.commitmentToProofId commitment ≠ 0 then .error .DuplicateCommitment
    else
      let proofId := s.proofCounter + 1
      let s1 : RegistryState := { s with
        proofCounter := proofId,
        proofCommitments := Function.update s.proofCommitments proofId
          { commitment := commitment, eventId := eventId, submitter := sender,
            timestamp := blockTimestamp, isValid := true, nftTokenId := 0 },
        commitmentToProofId := Function.update s.commitmentToProofId commitment proofId,
        userProofs := Function.update s.userProofs sender (s.userProofs sender ++ [proofId]),
        eventProofs := Function.update s.eventProofs eventId (s.eventProofs eventId ++ [proofId]) }
      if (s1.proofCommitments proofId).isValid = true then
        (mintNFT s1 proofId sender eventId).map (fun s2 => (s2, proofId))
      else .ok (s1, proofId)

/-- Operation `validateProof(proofId, isValid)` (onlyOwner): sets `isValid` and mints
an NFT when the proof is now valid and no NFT exists for it. -/
def validateProof (s : RegistryState) (caller : Address) (proofId : Nat)
    (isValid : Bool) : Except RegistryError RegistryState :=
  if caller ≠ s.owner then .error .Unauthorized
  else if ¬(1 ≤ proofId ∧ proofId ≤ s.proofCounter) then .error .InvalidProofId
  else
    let s1 : RegistryState := { s with
      proofCommitments := Function.update s.proofCommitments proofId
        { s.proofCommitments proofId with isValid := isValid } }
    if isValid = true ∧ (s1.proofCommitments proofId).nftTokenId = 0 then
      mintNFT s1 proofId (s1.proofCommitments proofId).submitter
        (s1.proofCommitments proofId).eventId
    else .ok s1

/-- Operation `setEventMetadata` (onlyOwner): overwrites the metadata of an event. -/
def setEventMetadata (s : RegistryState) (caller : Address) (eventId : String)
    (eventName eventDescription imageUri location : String) (eventDate : Nat) :
    Except RegistryError RegistryState :=
  if caller ≠ s.owner then .error .Unauthorized
  else .ok { s with
    eventMetadata := Function.update s.eventMetadata eventId
      { eventName := eventName, eventDescription := eventDescription,
        imageUri := imageUri, location := location, eventDate := eventDate } }

/-- Query `getUserProofs(user)`. -/
def getUserProofs (s : RegistryState) (user : Address) : List Nat :=
  s.userProofs user

/-- Query `getTotalProofs()`. -/
def getTotalProofs (s : RegistryState) : Nat :=
  s.proofCounter

/-- Query `getTotalNFTs()`. -/
def getTotalNFTs (s : RegistryState) : Nat :=
  s.tokenIdCounter

/-- Query `getProof(proofId)`. -/
def getProof (s : RegistryState) (proofId : Nat) :
    Except RegistryError (Commitment × String × Address × Nat × Bool × Nat) :=
  if ¬(1 ≤ proofId ∧ proofId ≤ s.proofCounter) then .error .InvalidProofId
  else
    let p := s.proofCommitments proofId
    .ok (p.commitment, p.eventId, p.submitter, p.timestamp, p.isValid, p.nftTokenId)

/-- Query `hasValidProofForEvent(user, eventId)`: scans the caller's proof ids and
returns true on the first record whose eventId hash matches and which is
valid (keccak equality of the strings modelled as string equality). -/
def hasValidProofForEvent (s : RegistryState) (user : Address)
    (eventId : String) : Bool :=
  (s.userProofs user).any fun pid =>
    let proof := s.proofCommitments pid
    proof.eventId == eventId && proof.isValid

/-- Storage right after the constructor ran: counters at zero, all mappings
at their zero defaults, `owner` the deployer. -/
def initialState (owner : Address) : RegistryState :=
  { owner := owner, proofCounter := 0, tokenIdCounter := 0,
    proofCommitments := fun _ => emptyRecord,
    commitmentToProofId := fun _ => 0,
    eventMetadata := fun _ => emptyMetadata,
    userProofs := fun _ => [],
    eventProofs := fun _ => [],
    ownerOf := fun _ => 0,
    tokenURIs := fun _ => "" }

/-- One successful mutating transaction of the registry. -/
inductive Step : RegistryState → RegistryState → Prop where
  | submit (s s' : RegistryState) (sender ts : Nat) (eventId : String)
      (proofData : List Nat) (pid : Nat) :
      submitProof s sender ts eventId proofData = .ok (s', pid) → Step s s'
  | validate (s s' : RegistryState) (caller pid : Nat) (b : Bool) :
      validateProof s caller pid b = .ok s' → Step s s'
  | setMeta (s s' : RegistryState) (caller : Nat)
      (eventId eventName eventDescription imageUri location : String) (eventDate : Nat) :
      setEventMetadata s caller eventId eventName eventDescription imageUri location
        eventDate = .ok s' → Step s s'

/-- Contract states reachable from deployment by successful transactions. -/
inductive Reachable : RegistryState → Prop where
  | init (owner : Address) : Reachable (initialState owner)
  | step (s s' : RegistryState) : Reachable s → Step s s' → Reachable s'

/-- Result state of a successful `submitProof`, the unchanged state on revert. -/
def runSubmit (s : RegistryState) (sender ts : Nat) (eventId : String)
    (proofData : List Nat) : RegistryState :=
  match submitProof s sender ts eventId proofData with
  | .ok (s', _) => s'
  | .error _ => s

/-- Result state of a successful `validateProof`, the unchanged state on revert. -/
def runValidate (s : RegistryState) (caller pid : Nat) (b : Bool) : RegistryState :=
  match validateProof s caller pid b with
  | .ok s' => s'
  | .error _ => s

/-- Characterization of a successful `submitProof` transaction: the guards
passed (inputs non-empty, commitment fresh, sender non-zero, fresh token
unowned), the allocated proof id is the incremented counter, and every
storage slot except the token URI store has the stated value. -/
theorem submitProof_ok {s s' : RegistryState} {sender ts : Nat} {eid : String}
    {pd : List Nat} {pid : Nat}
    (h : submitProof s sender ts eid pd = .ok (s', pid)) :
    eid.length ≠ 0 ∧ pd.length ≠ 0 ∧
    s.commitmentToProofId ⟨eid, pd, sender, ts⟩ = 0 ∧
    sender ≠ 0 ∧ s.ownerOf (s.tokenIdCounter + 1) = 0 ∧
    pid = s.proofCounter + 1 ∧
    s'.owner = s.owner ∧
    s'.proofCounter = s.proofCounter + 1 ∧
    s'.tokenIdCounter = s.tokenIdCounter + 1 ∧
    s'.proofCommitments = Function.update s.proofCommitments (s.proofCounter + 1)
      { commitment := ⟨eid, pd, sender, ts⟩, eventId := eid, submitter := sender,
        timestamp := ts, isValid := true, nftTokenId := s.tokenIdCounter + 1 } ∧
    s'.commitmentToProofId =
      Function.update s.commitmentToProofId ⟨eid, pd, sender, ts⟩ (s.proofCounter + 1) ∧
    s'.userProofs =
      Function.update s.userProofs sender (s.userProofs sender ++ [s.proofCounter + 1]) ∧
    s'.eventProofs =
      Function.update s.eventProofs eid (s.eventProofs eid ++ [s.proofCounter + 1]) ∧
    s'.eventMetadata = s.eventMetadata ∧
    s'.ownerOf = Function.update s.ownerOf (s.tokenIdCounter + 1) sender := by
  unfold submitProof at h
  dsimp only at h
  by_cases heid : eid.length = 0
  · rw [if_pos heid] at h; exact absurd h (by simp)
  rw [if_neg heid] at h
  by_cases hpd : pd.length = 0
  · rw [if_pos hpd] at h; exact absurd h (by simp)
  rw [if_neg hpd] at h
  by_cases hdup : s.commitmentToProofId ⟨eid, pd, sender, ts⟩ ≠ 0
  · rw [if_pos hdup] at h; exact absurd h (by simp)
  rw [if_neg hdup] at h
  rw [not_ne_iff] at hdup
  rw [Function.update_same] at h
  rw [if_pos rfl] at h
  unfold mintNFT at h
  dsimp only at h
  rw [Function.update_same, Function.update_idem] at h
  by_cases hsender : sender = 0
  · rw [if_pos hsender] at h; exact absurd h (by simp [Except.map])
  rw [if_neg hsender] at h
  by_cases howner : s.ownerOf (s.tokenIdCounter + 1) ≠ 0
  · rw [if_pos howner] at h; exact absurd h (by simp [Except.map])
  rw [if_neg howner] at h
  rw [not_ne_iff] at howner
  by_cases himg : (s.eventMetadata eid).imageUri.length ≠ 0
  · rw [if_pos himg] at h
    simp only [Except.map] at h
    injection h with h2
    rw [Prod.mk.injEq] at h2
    obtain ⟨hbig, hpid⟩ := h2
    subst hbig; subst hpid
    exact ⟨heid, hpd, hdup, hsender, howner, rfl, rfl, rfl, rfl, rfl, rfl, rfl, rfl, rfl, rfl⟩
  · rw [if_neg himg] at h
    simp only [Except.map] at h
    injection h with h2
    rw [Prod.mk.injEq] at h2
    obtain ⟨hbig, hpid⟩ := h2
    subst hbig; subst hpid
    exact ⟨heid, hpd, hdup, hsender, howner, rfl, rfl, rfl, rfl, rfl, rfl, rfl, rfl, rfl, rfl⟩

/-- Guards of a successful `validateProof`: authorized caller and id in range. -/
theorem validateProof_ok_guards {s s' : RegistryState} {caller pid : Nat} {b : Bool}
    (h : validateProof s caller pid b = .ok s') :
    caller = s.owner ∧ 1 ≤ pid ∧ pid ≤ s.proofCounter := by
  unfold validateProof at h
  by_cases hc : caller = s.owner
  case neg => rw [if_pos hc] at h; exact absurd h (by simp)
  rw [if_neg (not_not_intro hc)] at h
  by_cases hrange : 1 ≤ pid ∧ pid ≤ s.proofCounter
  case neg => rw [if_pos hrange] at h; exact absurd h (by simp)
  exact ⟨hc, hrange.1, hrange.2⟩

theorem validateProof_ok_noMint {s s' : RegistryState} {caller pid : Nat} {b : Bool}
    (h : validateProof s caller pid b = .ok s')
    (hcond : ¬(b = true ∧ (s.proofCommitments pid).nftTokenId = 0)) :
    s' = { s with proofCommitments := (Function.update s.proofCommitments pid
             { s.proofCommitments pid with isValid := b }) } := by
  unfold validateProof at h
  by_cases hc : caller = s.owner
  case neg => rw [if_pos hc] at h; exact absurd h (by simp)
  rw [if_neg (not_not_intro hc)] at h
  by_cases hrange : 1 ≤ pid ∧ pid ≤ s.proofCounter
  case neg => rw [if_pos hrange] at h; exact absurd h (by simp)
  rw [if_neg (not_not_intro hrange)] at h
  dsimp only at h
  rw [Function.update_same] at h
  dsimp only at h
  rw [if_neg hcond] at h
  injection h with h2
  exact h2.symm

theorem validateProof_ok_mint {s s' : RegistryState} {caller pid : Nat} {b : Bool}
    (h : validateProof s caller pid b = .ok s')
    (hb : b = true) (hnft : (s.proofCommitments pid).nftTokenId = 0) :
    (s.proofCommitments pid).submitter ≠ 0 ∧
    s.ownerOf (s.tokenIdCounter + 1) = 0 ∧
    s'.owner = s.owner ∧
    s'.proofCounter = s.proofCounter ∧
    s'.tokenIdCounter = s.tokenIdCounter + 1 ∧
    s'.proofCommitments = Function.update s.proofCommitments pid
      { s.proofCommitments pid with isValid := b, nftTokenId := s.tokenIdCounter + 1 } ∧
    s'.commitmentToProofId = s.commitmentToProofId ∧
    s'.userProofs = s.userProofs ∧
    s'.eventProofs = s.eventProofs ∧
    s'.eventMetadata = s.eventMetadata ∧
    s'.ownerOf = Function.update s.ownerOf (s.tokenIdCounter + 1)
      (s.proofCommitments pid).submitter := by
  unfold validateProof at h
  by_cases hc : caller = s.owner
  case neg => rw [if_pos hc] at h; exact absurd h (by simp)
  rw [if_neg (not_not_intro hc)] at h
  by_cases hrange : 1 ≤ pid ∧ pid ≤ s.proofCounter
  case neg => rw [if_pos hrange] at h; exact absurd h (by simp)
  rw [if_neg (not_not_intro hrange)] at h
  dsimp only at h
  rw [Function.update_same] at h
  dsimp only at h
  rw [if_pos ⟨hb, hnft⟩] at h
  unfold mintNFT at h
  dsimp only at h
  rw [Function.update_same, Function.update_idem] at h
  by_cases hsb : (s.proofCommitments pid).submitter = 0
  · rw [if_pos hsb] at h; exact absurd h (by simp)
  rw [if_neg hsb] at h
  by_cases howner : s.ownerOf (s.tokenIdCounter + 1) ≠ 0
  · rw [if_pos howner] at h; exact absurd h (by simp)
  rw [if_neg howner] at h
  rw [not_ne_iff] at howner
  by_cases himg : (s.eventMetadata (s.proofCommitments pid).eventId).imageUri.length ≠ 0
  · rw [if_pos himg] at h
    injection h with h2
    subst h2
    exact ⟨hsb, howner, rfl, rfl, rfl, rfl, rfl, rfl, rfl, rfl, rfl⟩
  · rw [if_neg himg] at h
    injection h with h2
    subst h2
    exact ⟨hsb, howner, rfl, rfl, rfl, rfl, rfl, rfl, rfl, rfl, rfl⟩

structure RegInv (s : RegistryState) : Prop where
  proofId_range : ∀ c, s.commitmentToProofId c ≠ 0 →
    1 ≤ s.commitmentToProofId c ∧ s.commitmentToProofId c ≤ s.proofCounter
  commit_record : ∀ c, s.commitmentToProofId c ≠ 0 →
    (s.proofCommitments (s.commitmentToProofId c)).commitment = c
  record_commit : ∀ pid, 1 ≤ pid → pid ≤ s.proofCounter →
    s.commitmentToProofId (s.proofCommitments pid).commitment = pid
  record_wf : ∀ pid, 1 ≤ pid → pid ≤ s.proofCounter →
    (s.proofCommitments pid).commitment.eventId.length ≠ 0 ∧
    (s.proofCommitments pid).commitment.proofData.length ≠ 0
  record_minted : ∀ pid, 1 ≤ pid → pid ≤ s.proofCounter →
    1 ≤ (s.proofCommitments pid).nftTokenId ∧
    (s.proofCommitments pid).nftTokenId ≤ s.tokenIdCounter
  token_owned : ∀ t, s.ownerOf t ≠ 0 ↔ (1 ≤ t ∧ t ≤ s.tokenIdCounter)
  token_binding : ∀ t, 1 ≤ t → t ≤ s.tokenIdCounter →
    ∃ pid, 1 ≤ pid ∧ pid ≤ s.proofCounter ∧ (s.proofCommitments pid).nftTokenId = t
  binding_inj : ∀ pid qid, 1 ≤ pid → pid ≤ s.proofCounter → 1 ≤ qid →
    qid ≤ s.proofCounter →
    (s.proofCommitments pid).nftTokenId = (s.proofCommitments qid).nftTokenId →
    pid = qid
  user_proofs_spec : ∀ u pid, pid ∈ s.userProofs u ↔
    (1 ≤ pid ∧ pid ≤ s.proofCounter ∧ (s.proofCommitments pid).submitter = u)

theorem inv_init (owner : Address) : RegInv (initialState owner) := by
  constructor <;> intro a <;> simp [initialState, emptyRecord] <;> omega

theorem inv_submit {s s' : RegistryState} {sender ts : Nat} {eid : String}
    {pd : List Nat} {pid : Nat}
    (hs : RegInv s) (h : submitProof s sender ts eid pd = .ok (s', pid)) : RegInv s' := by
  obtain ⟨heid, hpd, hdup, hsender, howner, hpid, hown, hpc, htc, hrec, hmap,
    hup, hep, hmd, hoo⟩ := submitProof_ok h
  constructor
  · -- proofId_range
    intro c hc
    rw [hmap] at hc ⊢
    rw [hpc]
    by_cases hcc : c = (⟨eid, pd, sender, ts⟩ : Commitment)
    · subst hcc; rw [Function.update_same]; omega
    · rw [Function.update_noteq hcc] at hc ⊢
      have := hs.proofId_range c hc
      omega
  · -- commit_record
    intro c hc
    rw [hmap] at hc ⊢
    rw [hrec]
    by_cases hcc : c = (⟨eid, pd, sender, ts⟩ : Commitment)
    · subst hcc
      rw [Function.update_same, Function.update_same]
    · rw [Function.update_noteq hcc] at hc ⊢
      have hr := hs.proofId_range c hc
      have hne : s.commitmentToProofId c ≠ s.proofCounter + 1 := by omega
      rw [Function.update_noteq hne]
      exact hs.commit_record c hc
  · -- record_commit
    intro q h1 h2
    rw [hpc] at h2
    rw [hrec, hmap]
    by_cases hq : q = s.proofCounter + 1
    · subst hq
      rw [Function.update_same]
      rw [Function.update_same]
    · rw [Function.update_noteq hq]
      have h2' : q ≤ s.proofCounter := by omega
      have hcc : (s.proofCommitments q).commitment ≠ (⟨eid, pd, sender, ts⟩ : Commitment) := by
        intro hcontra
        have := hs.record_commit q h1 h2'
        rw [hcontra, hdup] at this
        omega
      rw [Function.update_noteq hcc]
      exact hs.record_commit q h1 h2'
  · -- record_wf
    intro q h1 h2
    rw [hpc] at h2
    rw [hrec]
    by_cases hq : q = s.proofCounter + 1
    · subst hq
      rw [Function.update_same]
      exact ⟨heid, hpd⟩
    · rw [Function.update_noteq hq]
      exact hs.record_wf q h1 (by omega)
  · -- record_minted
    intro q h1 h2
    rw [hpc] at h2
    rw [hrec, htc]
    by_cases hq : q = s.proofCounter + 1
    · subst hq
      rw [Function.update_same]
      dsimp only
      omega
    · rw [Function.update_noteq hq]
      have := hs.record_minted q h1 (by omega)
      omega
  · -- token_owned
    intro t
    rw [hoo, htc]
    by_cases ht : t = s.tokenIdCounter + 1
    · subst ht
      rw [Function.update_same]
      constructor
      · intro _; omega
      · intro _; exact hsender
    · rw [Function.update_noteq ht]
      rw [hs.token_owned t]
      omega
  · -- token_binding
    intro t h1 h2
    rw [htc] at h2
    rw [hpc]
    by_cases ht : t = s.tokenIdCounter + 1
    · subst ht
      refine ⟨s.proofCounter + 1, by omega, by omega, ?_⟩
      rw [hrec, Function.update_same]
    · obtain ⟨q, hq1, hq2, hq3⟩ := hs.token_binding t h1 (by omega)
      refine ⟨q, hq1, by omega, ?_⟩
      rw [hrec, Function.update_noteq (by omega)]
      exact hq3
  · -- binding_inj
    intro q q' h1 h2 h1' h2' heq
    rw [hpc] at h2 h2'
    rw [hrec] at heq
    by_cases hq : q = s.proofCounter + 1 <;> by_cases hq' : q' = s.proofCounter + 1
    · rw [hq, hq']
    · subst hq
      rw [Function.update_same, Function.update_noteq hq'] at heq
      have := hs.record_minted q' h1' (by omega)
      dsimp only at heq
      omega
    · subst hq'
      rw [Function.update_noteq hq, Function.update_same] at heq
      have := hs.record_minted q h1 (by omega)
      dsimp only at heq
      omega
    · rw [Function.update_noteq hq, Function.update_noteq hq'] at heq
      exact hs.binding_inj q q' h1 (by omega) h1' (by omega) heq
  · -- user_proofs_spec
    intro u q
    rw [hup, hpc, hrec]
    by_cases hu : u = sender
    · subst hu
      rw [Function.update_same]
      rw [List.mem_append, List.mem_singleton]
      constructor
      · rintro (hin | hq)
        · obtain ⟨a1, a2, a3⟩ := (hs.user_proofs_spec _ q).mp hin
          refine ⟨a1, by omega, ?_⟩
          rw [Function.update_noteq (by omega)]
          exact a3
        · subst hq
          refine ⟨by omega, by omega, ?_⟩
          rw [Function.update_same]
      · rintro ⟨a1, a2, a3⟩
        by_cases hq : q = s.proofCounter + 1
        · right; exact hq
        · left
          rw [Function.update_noteq hq] at a3
          exact (hs.user_proofs_spec _ q).mpr ⟨a1, by omega, a3⟩
    · rw [Function.update_noteq hu]
      constructor
      · intro hin
        obtain ⟨a1, a2, a3⟩ := (hs.user_proofs_spec u q).mp hin
        refine ⟨a1, by omega, ?_⟩
        rw [Function.update_noteq (by omega)]
        exact a3
      · rintro ⟨a1, a2, a3⟩
        by_cases hq : q = s.proofCounter + 1
        · subst hq
          rw [Function.update_same] at a3
          exact absurd a3.symm hu
        · rw [Function.update_noteq hq] at a3
          exact (hs.user_proofs_spec u q).mpr ⟨a1, by omega, a3⟩

theorem setEventMetadata_ok {s s' : RegistryState} {caller : Nat}
    {eid n d i l : String} {date : Nat}
    (h : setEventMetadata s caller eid n d i l date = .ok s') :
    caller = s.owner ∧
    s' = { s with eventMetadata := (Function.update s.eventMetadata eid
             { eventName := n, eventDescription := d, imageUri := i,
               location := l, eventDate := date }) } := by
  unfold setEventMetadata at h
  by_cases hc : caller = s.owner
  case neg => rw [if_pos hc] at h; exact absurd h (by simp)
  rw [if_neg (not_not_intro hc)] at h
  injection h with h2
  exact ⟨hc, h2.symm⟩

theorem inv_validate {s s' : RegistryState} {caller pid : Nat} {b : Bool}
    (hs : RegInv s) (h : validateProof s caller pid b = .ok s') : RegInv s' := by
  obtain ⟨hc, h1, h2⟩ := validateProof_ok_guards h
  have hmint := hs.record_minted pid h1 h2
  have hcond : ¬(b = true ∧ (s.proofCommitments pid).nftTokenId = 0) := by
    rintro ⟨_, hz⟩; omega
  have hE := validateProof_ok_noMint h hcond
  subst hE
  have hfld : ∀ q, ((Function.update s.proofCommitments pid
      ({ s.proofCommitments pid with isValid := b })) q).commitment =
        (s.proofCommitments q).commitment ∧
      ((Function.update s.proofCommitments pid
      ({ s.proofCommitments pid with isValid := b })) q).nftTokenId =
        (s.proofCommitments q).nftTokenId ∧
      ((Function.update s.proofCommitments pid
      ({ s.proofCommitments pid with isValid := b })) q).submitter =
        (s.proofCommitments q).submitter := by
    intro q
    by_cases hq : q = pid
    · subst hq; rw [Function.update_same]; exact ⟨rfl, rfl, rfl⟩
    · rw [Function.update_noteq hq]; exact ⟨rfl, rfl, rfl⟩
  constructor
  · exact hs.proofId_range
  · intro c hcne
    rw [(hfld _).1]
    exact hs.commit_record c hcne
  · intro q hq1 hq2
    rw [(hfld q).1]
    exact hs.record_commit q hq1 hq2
  · intro q hq1 hq2
    rw [(hfld q).1]
    exact hs.record_wf q hq1 hq2
  · intro q hq1 hq2
    rw [(hfld q).2.1]
    exact hs.record_minted q hq1 hq2
  · exact hs.token_owned
  · intro t ht1 ht2
    obtain ⟨q, hq1, hq2, hq3⟩ := hs.token_binding t ht1 ht2
    refine ⟨q, hq1, hq2, ?_⟩
    rw [(hfld q).2.1]
    exact hq3
  · intro q q' hq1 hq2 hq1' hq2' heq
    rw [(hfld q).2.1, (hfld q').2.1] at heq
    exact hs.binding_inj q q' hq1 hq2 hq1' hq2' heq
  · intro u q
    rw [(hfld q).2.2]
    exact hs.user_proofs_spec u q

theorem inv_setMeta {s s' : RegistryState} {caller : Nat} {eid n d i l : String}
    {date : Nat} (hs : RegInv s)
    (h : setEventMetadata s caller eid n d i l date = .ok s') : RegInv s' := by
  obtain ⟨hc, hE⟩ := setEventMetadata_ok h
  subst hE
  exact ⟨hs.proofId_range, hs.commit_record, hs.record_commit, hs.record_wf,
    hs.record_minted, hs.token_owned, hs.token_binding, hs.binding_inj,
    hs.user_proofs_spec⟩

theorem inv_step {s s' : RegistryState} (hs : RegInv s) (st : Step s s') :
    RegInv s' := by
  cases st with
  | submit sender ts eid pd pid h => exact inv_submit hs h
  | validate caller pid b h => exact inv_validate hs h
  | setMeta caller eid n d i l date h => exact inv_setMeta hs h

theorem inv_reachable {s : RegistryState} (hs : Reachable s) : RegInv s := by
  induction hs with
  | init owner => exact inv_init owner
  | step s s' _ st ih => exact inv_step ih st

def sampleInit : RegistryState := initialState 7

def sampleA : RegistryState := runSubmit sampleInit 5 100 "eth-summit" [1, 2]

def sampleBad : RegistryState := runValidate sampleA 7 1 false

theorem submit_sampleA :
    submitProof sampleInit 5 100 "eth-summit" [1, 2] = .ok (sampleA, 1) := rfl

theorem reachable_sampleA : Reachable sampleA :=
  Reachable.step sampleInit sampleA (Reachable.init 7)
    (Step.submit sampleInit sampleA 5 100 "eth-summit" [1, 2] 1 submit_sampleA)

theorem validate_sampleBad : validateProof sampleA 7 1 false = .ok sampleBad := rfl

theorem reachable_sampleBad : Reachable sampleBad :=
  Reachable.step sampleA sampleBad reachable_sampleA
    (Step.validate sampleA sampleBad 7 1 false validate_sampleBad)

theorem dup_submit_error {s : RegistryState} (hs : RegInv s) {sender ts : Nat}
    {eid : String} {pd : List Nat}
    (hc : s.commitmentToProofId ⟨eid, pd, sender, ts⟩ ≠ 0) :
    submitProof s sender ts eid pd = .error .DuplicateCommitment := by
  have hr := hs.proofId_range _ hc
  have hcr := hs.commit_record _ hc
  have hwf := hs.record_wf _ hr.1 hr.2
  rw [hcr] at hwf
  have h1 : eid.length ≠ 0 := hwf.1
  have h2 : pd.length ≠ 0 := hwf.2
  unfold submitProof
  rw [if_neg h1, if_neg h2]
  dsimp only
  rw [if_pos hc]

theorem commitment_unique {s : RegistryState} (hs : RegInv s) :
    ∀ pid qid, 1 ≤ pid → pid ≤ s.proofCounter → 1 ≤ qid → qid ≤ s.proofCounter →
      (s.proofCommitments pid).commitment = (s.proofCommitments qid).commitment →
      pid = qid := by
  intro p q h1 h2 h1' h2' heq
  have hp := hs.record_commit p h1 h2
  have hq := hs.record_commit q h1' h2'
  rw [heq] at hp
  exact hp.symm.trans hq

/-- C1: in every reachable registry state, a submission whose computed
commitment already maps to an existing record reverts with
`DuplicateCommitment` (an erroring operation changes no storage in this
model, so no record is added); there is at most one stored record per
commitment value; and a second `submitProof` with the identical
(eventId, proofData, submitter, submissionTime) tuple after a successful
one reverts with `DuplicateCommitment`, leaving exactly one stored record
with that commitment. -/
theorem submitProof_dedup_invariant (s : RegistryState) (hs : Reachable s) :
    (∀ sender ts eid pd,
      s.commitmentToProofId ⟨eid, pd, sender, ts⟩ ≠ 0 →
      submitProof s sender ts eid pd = .error .DuplicateCommitment) ∧
    (∀ pid qid, 1 ≤ pid → pid ≤ s.proofCounter → 1 ≤ qid → qid ≤ s.proofCounter →
      (s.proofCommitments pid).commitment = (s.proofCommitments qid).commitment →
      pid = qid) ∧
    (∀ sender ts eid pd s' pid,
      submitProof s sender ts eid pd = .ok (s', pid) →
      submitProof s' sender ts eid pd = .error .DuplicateCommitment ∧
      ∃ q, (1 ≤ q ∧ q ≤ s'.proofCounter ∧
            (s'.proofCommitments q).commitment = ⟨eid, pd, sender, ts⟩) ∧
        ∀ q', 1 ≤ q' → q' ≤ s'.proofCounter →
          (s'.proofCommitments q').commitment = ⟨eid, pd, sender, ts⟩ → q' = q) := by
  have hinv := inv_reachable hs
  refine ⟨fun sender ts eid pd hc => dup_submit_error hinv hc,
    commitment_unique hinv, ?_⟩
  intro sender ts eid pd s' pid hok
  have hs' : Reachable s' :=
    Reachable.step s s' hs (Step.submit s s' sender ts eid pd pid hok)
  have hinv' := inv_reachable hs'
  obtain ⟨heid, hpd, hdup, hsender, howner, hpid, hown, hpc, htc, hrec, hmap,
    hup, hep, hmd, hoo⟩ := submitProof_ok hok
  have hcne : s'.commitmentToProofId ⟨eid, pd, sender, ts⟩ ≠ 0 := by
    rw [hmap, Function.update_same]
    omega
  refine ⟨dup_submit_error hinv' hcne, ⟨s.proofCounter + 1, ⟨by omega, by omega, ?_⟩, ?_⟩⟩
  · rw [hrec, Function.update_same]
  · intro q' hq1 hq2 hq3
    refine commitment_unique hinv' q' (s.proofCounter + 1) hq1 hq2 (by omega) (by omega) ?_
    rw [hq3, hrec, Function.update_same]

/-- Witness for C1 at a concrete reachable state: re-submitting the identical
tuple after a successful submission reverts with `DuplicateCommitment`. -/
theorem submitProof_dedup_invariant_witness :
    submitProof sampleA 5 100 "eth-summit" [1, 2] = .error .DuplicateCommitment :=
  (submitProof_dedup_invariant sampleA reachable_sampleA).1 5 100 "eth-summit" [1, 2]
    (by decide)

/-- C2 counterexample: in the reachable state obtained by one successful
`submitProof` (which auto-mints credential 1) followed by
`validateProof(1, false)`, the credential still exists (`ownerOf 1 ≠ 0`)
while no stored record has `valid = true`, so the claimed biconditional
"a Credential exists iff some ProofRecord has valid = true and credentialId
set" fails after invalidating an already-minted record. -/
theorem credential_validity_biconditional_cex :
    Reachable sampleBad ∧ sampleBad.ownerOf 1 ≠ 0 ∧
    ¬(∃ pid, 1 ≤ pid ∧ pid ≤ sampleBad.proofCounter ∧
        (sampleBad.proofCommitments pid).isValid = true ∧
        (sampleBad.proofCommitments pid).nftTokenId ≠ 0) := by
  refine ⟨reachable_sampleBad, by decide, ?_⟩
  rintro ⟨pid, h1, h2, h3, h4⟩
  have hpc : sampleBad.proofCounter = 1 := by decide
  rw [hpc] at h2
  have hp : pid = 1 := by omega
  subst hp
  exact absurd h3 (by decide)

/-- C2 amended: in every reachable state a credential (an existing ERC721
token) exists iff some stored proof record is bound to it through
`nftTokenId` — with no `valid = true` requirement, since `validateProof`
may set `valid = false` on a minted record while the credential persists;
the binding is 1:1, and no registry operation ever changes the `nftTokenId`
binding of an existing record. -/
theorem credential_binding_amended (s : RegistryState) (hs : Reachable s) :
    (∀ t, s.ownerOf t ≠ 0 ↔
      ∃ pid, 1 ≤ pid ∧ pid ≤ s.proofCounter ∧
        (s.proofCommitments pid).nftTokenId = t) ∧
    (∀ pid qid, 1 ≤ pid → pid ≤ s.proofCounter → 1 ≤ qid → qid ≤ s.proofCounter →
      (s.proofCommitments pid).nftTokenId = (s.proofCommitments qid).nftTokenId →
      pid = qid) ∧
    (∀ s', Step s s' → ∀ pid, 1 ≤ pid → pid ≤ s.proofCounter →
      (s'.proofCommitments pid).nftTokenId = (s.proofCommitments pid).nftTokenId) := by
  have hinv := inv_reachable hs
  refine ⟨?_, hinv.binding_inj, ?_⟩
  · intro t
    constructor
    · intro ht
      have := (hinv.token_owned t).mp ht
      exact hinv.token_binding t this.1 this.2
    · rintro ⟨pid, h1, h2, h3⟩
      have := hinv.record_minted pid h1 h2
      rw [h3] at this
      exact (hinv.token_owned t).mpr this
  · intro s' hstep pid h1 h2
    cases hstep with
    | submit sender ts eid pd pid' hok =>
      obtain ⟨_, _, _, _, _, _, _, _, _, hrec, _, _, _, _, _⟩ := submitProof_ok hok
      rw [hrec, Function.update_noteq (by omega)]
    | validate caller pid' b hok =>
      have hg := validateProof_ok_guards hok
      have hmint := hinv.record_minted pid' hg.2.1 hg.2.2
      have hcond : ¬(b = true ∧ (s.proofCommitments pid').nftTokenId = 0) := by
        rintro ⟨_, hz⟩; omega
      have hE := validateProof_ok_noMint hok hcond
      subst hE
      by_cases hq : pid = pid'
      · subst hq; dsimp only; rw [Function.update_same]
      · dsimp only; rw [Function.update_noteq hq]
    | setMeta caller eid n d i l date hok =>
      obtain ⟨_, hE⟩ := setEventMetadata_ok hok
      subst hE
      rfl

/-- Witness for the amended C2 at a concrete reachable state. -/
theorem credential_binding_amended_witness :
    ∃ pid, 1 ≤ pid ∧ pid ≤ sampleA.proofCounter ∧
      (sampleA.proofCommitments pid).nftTokenId = 1 :=
  ((credential_binding_amended sampleA reachable_sampleA).1 1).mp (by decide)

/-- C7: in every reachable state, `hasValidProofForEvent(user, eventId)` is
true iff some stored record has that submitter and that eventId and
`valid = true`, independently of the minting state. -/
theorem hasValidProofForEvent_iff (s : RegistryState) (hs : Reachable s)
    (user : Address) (eid : String) :
    hasValidProofForEvent s user eid = true ↔
    ∃ pid, 1 ≤ pid ∧ pid ≤ s.proofCounter ∧
      (s.proofCommitments pid).submitter = user ∧
      (s.proofCommitments pid).eventId = eid ∧
      (s.proofCommitments pid).isValid = true := by
  have hinv := inv_reachable hs
  unfold hasValidProofForEvent
  rw [List.any_eq_true]
  constructor
  · rintro ⟨pid, hin, hcond⟩
    obtain ⟨h1, h2, h3⟩ := (hinv.user_proofs_spec user pid).mp hin
    simp only [Bool.and_eq_true, beq_iff_eq] at hcond
    exact ⟨pid, h1, h2, h3, hcond.1, hcond.2⟩
  · rintro ⟨pid, h1, h2, h3, h4, h5⟩
    refine ⟨pid, (hinv.user_proofs_spec user pid).mpr ⟨h1, h2, h3⟩, ?_⟩
    simp only [Bool.and_eq_true, beq_iff_eq]
    exact ⟨h4, h5⟩

/-- Witness for C7 at a concrete reachable state. -/
theorem hasValidProofForEvent_iff_witness :
    hasValidProofForEvent sampleA 5 "eth-summit" = true :=
  (hasValidProofForEvent_iff sampleA reachable_sampleA 5 "eth-summit").mpr
    ⟨1, by decide, by decide, by decide, by decide, by decide⟩

/-- C9: in every reachable state, a non-zero `commitmentToProofId` entry is
a genuine in-range record id whose record carries that commitment; a zero
entry means no stored record has that commitment; every stored record's
`nftTokenId` is between 1 and the token counter (so `nftTokenId = 0`
unambiguously encodes "no credential"); and every existing token id is at
least 1 (so `commitmentToProofId = 0` can never denote a real record). -/
theorem zero_id_encoding_unambiguous (s : RegistryState) (hs : Reachable s) :
    (∀ c, s.commitmentToProofId c ≠ 0 →
      1 ≤ s.commitmentToProofId c ∧ s.commitmentToProofId c ≤ s.proofCounter ∧
      (s.proofCommitments (s.commitmentToProofId c)).commitment = c) ∧
    (∀ c, s.commitmentToProofId c = 0 →
      ∀ pid, 1 ≤ pid → pid ≤ s.proofCounter →
        (s.proofCommitments pid).commitment ≠ c) ∧
    (∀ pid, 1 ≤ pid → pid ≤ s.proofCounter →
      1 ≤ (s.proofCommitments pid).nftTokenId ∧
      (s.proofCommitments pid).nftTokenId ≤ s.tokenIdCounter) ∧
    (∀ t, s.ownerOf t ≠ 0 → 1 ≤ t ∧ t ≤ s.tokenIdCounter) := by
  have hinv := inv_reachable hs
  refine ⟨?_, ?_, hinv.record_minted, fun t ht => (hinv.token_owned t).mp ht⟩
  · intro c hc
    have hr := hinv.proofId_range c hc
    exact ⟨hr.1, hr.2, hinv.commit_record c hc⟩
  · intro c hc0 pid h1 h2 hcc
    have := hinv.record_commit pid h1 h2
    rw [hcc, hc0] at this
    omega

/-- Witness for C9 at a concrete reachable state. -/
theorem zero_id_encoding_unambiguous_witness :
    1 ≤ sampleA.commitmentToProofId ⟨"eth-summit", [1, 2], 5, 100⟩ ∧
    sampleA.commitmentToProofId ⟨"eth-summit", [1, 2], 5, 100⟩ ≤ sampleA.proofCounter ∧
    (sampleA.proofCommitments
      (sampleA.commitmentToProofId ⟨"eth-summit", [1, 2], 5, 100⟩)).commitment =
      ⟨"eth-summit", [1, 2], 5, 100⟩ :=
  (zero_id_encoding_unambiguous sampleA reachable_sampleA).1
    ⟨"eth-summit", [1, 2], 5, 100⟩ (by decide)

/-- C3: for a state with an existing record, `validateProof` mints a new
credential exactly when `isValid = true` and the record has no credential
bound yet (`nftTokenId = 0`): in that case the token counter advances, the
fresh token is bound to the record and owned by its submitter; otherwise —
in particular `validateProof(pid, false)` on a minted record, and
re-validating to `true` when already minted — the token counter, the
ownership map and the record's binding are unchanged (no unmint, no second
credential), only `valid` is set. -/
theorem validateProof_mint_exactly_when_unbound (s s' : RegistryState)
    (pid : Nat) (b : Bool)
    (h : validateProof s s.owner pid b = .ok s') :
    ((b = true ∧ (s.proofCommitments pid).nftTokenId = 0) →
      s'.tokenIdCounter = s.tokenIdCounter + 1 ∧
      (s'.proofCommitments pid).nftTokenId = s.tokenIdCounter + 1 ∧
      s'.ownerOf (s.tokenIdCounter + 1) = (s.proofCommitments pid).submitter ∧
      (s'.proofCommitments pid).isValid = b) ∧
    (¬(b = true ∧ (s.proofCommitments pid).nftTokenId = 0) →
      s'.tokenIdCounter = s.tokenIdCounter ∧
      s'.ownerOf = s.ownerOf ∧
      (s'.proofCommitments pid).nftTokenId = (s.proofCommitments pid).nftTokenId ∧
      (s'.proofCommitments pid).isValid = b) := by
  constructor
  · rintro ⟨hb, hz⟩
    obtain ⟨hsb, howner, hown, hpc, htc, hrec, hmap, hup, hep, hmd, hoo⟩ :=
      validateProof_ok_mint h hb hz
    refine ⟨htc, ?_, ?_, ?_⟩
    · rw [hrec, Function.update_same]
    · rw [hoo, Function.update_same]
    · rw [hrec, Function.update_same]
  · intro hcond
    have hE := validateProof_ok_noMint h hcond
    subst hE
    refine ⟨rfl, rfl, ?_, ?_⟩
    · dsimp only
      rw [Function.update_same]
    · dsimp only
      rw [Function.update_same]

/-- State with one stored record that is currently invalid and unminted:
the late-validation input for the C3 witness. -/
def lateState : RegistryState :=
  { owner := 7, proofCounter := 1, tokenIdCounter := 0,
    proofCommitments := (Function.update (fun _ => emptyRecord) 1
      { commitment := ⟨"eth-summit", [1, 2], 5, 100⟩, eventId := "eth-summit",
        submitter := 5, timestamp := 100, isValid := false, nftTokenId := 0 }),
    commitmentToProofId := (Function.update (fun _ => 0) ⟨"eth-summit", [1, 2], 5, 100⟩ 1),
    eventMetadata := fun _ => emptyMetadata,
    userProofs := (Function.update (fun _ => []) 5 [1]),
    eventProofs := (Function.update (fun _ => []) "eth-summit" [1]),
    ownerOf := fun _ => 0,
    tokenURIs := fun _ => "" }

/-- Witness for C3: the late-validation path mints the credential (and, on
the already-minted state `sampleA`, invalidating mints or unmints nothing). -/
theorem validateProof_mint_exactly_when_unbound_witness :
    ((runValidate lateState 7 1 true).tokenIdCounter = lateState.tokenIdCounter + 1 ∧
     ((runValidate lateState 7 1 true).proofCommitments 1).nftTokenId =
       lateState.tokenIdCounter + 1 ∧
     (runValidate lateState 7 1 true).ownerOf (lateState.tokenIdCounter + 1) = 5) ∧
    ((runValidate sampleA 7 1 false).tokenIdCounter = sampleA.tokenIdCounter ∧
     ((runValidate sampleA 7 1 false).proofCommitments 1).nftTokenId =
       (sampleA.proofCommitments 1).nftTokenId) := by
  constructor
  · have h := validateProof_mint_exactly_when_unbound lateState
      (runValidate lateState 7 1 true) 1 true rfl
    obtain ⟨a1, a2, a3, _⟩ := h.1 ⟨rfl, by decide⟩
    exact ⟨a1, a2, a3⟩
  · have h := validateProof_mint_exactly_when_unbound sampleA
      (runValidate sampleA 7 1 false) 1 false rfl
    obtain ⟨a1, _, a3, _⟩ := h.2 (by decide)
    exact ⟨a1, a3⟩

inductive TxState where
  | pending
  | confirmed
  | failed
deriving DecidableEq, Repr

/-- Interface `TransactionStatus` of `BlockchainManager` (the cached entry
of the `pendingTransactions` map). -/
structure TransactionStatus where
  hash : String
  status : TxState
  confirmations : Int
  gasUsed : Option String := none
  effectiveGasPrice : Option String := none
  blockNumber : Option Nat := none
deriving DecidableEq, Repr

/-- Transaction receipt as consumed by `monitorTransaction`:
`receipt.status` (1 = success, 0 = revert), inclusion block number,
gas used and optional effective gas price. -/
structure Receipt where
  status : Nat
  blockNumber : Nat
  gasUsed : Nat
  gasPrice : Option Nat
deriving DecidableEq, Repr

/-- Outcome of the awaited ledger calls of one `monitorTransaction`
invocation. `noProvider`: `this.provider` is null, early return.
`txNotFound`: `provider.getTransaction` resolved to null, early return.
`getTxError`: `provider.getTransaction` threw, caught by the catch block.
`waitError`: an awaited call after the transaction lookup threw
(`tx.wait()`, `getBlockNumber()` or the event query), caught by the catch
block. `mined r h`: `tx.wait()` returned receipt `r`, `getBlockNumber()`
returned `h`, and no later await threw. -/
inductive PollOutcome where
  | noProvider
  | txNotFound
  | getTxError
  | waitError
  | mined (receipt : Receipt) (currentHeight : Nat)
deriving DecidableEq, Repr

/-- The `pendingTransactions` static map: transaction hash to cached status. -/
abbrev TxCache := String → Option TransactionStatus

/-- The map before any transaction was recorded. -/
def emptyCache : TxCache := fun _ => none

/-- One invocation of `monitorTransaction(txHash)`, as a function of the
outcome of its awaited ledger calls.  The mined branch computes
`confirmations = getBlockNumber() - receipt.blockNumber + 1` and classifies
`receipt.status === 1` as confirmed, else failed; the catch block stores a
failed status with 0 confirmations. -/
def monitorTransaction (o : PollOutcome) (txHash : String) (m : TxCache) :
    TxCache :=
  match o with
  | .noProvider => m
  | .txNotFound => m
  | .getTxError =>
      Function.update m txHash
        (some { hash := txHash, status := .failed, confirmations := 0 })
  | .waitError =>
      Function.update m txHash
        (some { hash := txHash, status := .failed, confirmations := 0 })
  | .mined receipt currentHeight =>
      Function.update m txHash
        (some { hash := txHash,
                status := if receipt.status = 1 then .confirmed else .failed,
                confirmations := (currentHeight : Int) - (receipt.blockNumber : Int) + 1,
                gasUsed := some (toString receipt.gasUsed),
                effectiveGasPrice := receipt.gasPrice.map toString,
                blockNumber := some receipt.blockNumber })

/-- Number of times one `monitorTransaction` invocation awaits the ledger
receipt (`await tx.wait()`): the code reaches the wait whenever a provider
is present and the transaction lookup returned a transaction, regardless of
any previously cached status for the handle. -/
def monitorWaitCount (o : PollOutcome) : Nat :=
  match o with
  | .noProvider => 0
  | .txNotFound => 0
  | .getTxError => 0
  | .waitError => 1
  | .mined _ _ => 1

/-- Initial pending status stored by `submitProofToBlockchain`. -/
def submittedStatus (txHash : String) : TransactionStatus :=
  { hash := txHash, status := .pending, confirmations := 0 }

/-- Cache effect of `submitProofToBlockchain` on success: records the
pending status for the new transaction hash (before starting the monitor). -/
def recordSubmission (m : TxCache) (txHash : String) : TxCache :=
  Function.update m txHash (some (submittedStatus txHash))

/-- Query `getTransactionStatus(txHash)`: last cached status or null. -/
def getTransactionStatus (m : TxCache) (txHash : String) :
    Option TransactionStatus :=
  m txHash

/-- Operation `clearTransactionHistory()`: empties the map. -/
def clearTransactionHistory (_ : TxCache) : TxCache :=
  fun _ => none

/-- One cache mutation of `BlockchainManager`. -/
inductive CacheStep : TxCache → TxCache → Prop where
  | record (m : TxCache) (txHash : String) : CacheStep m (recordSubmission m txHash)
  | monitor (m : TxCache) (o : PollOutcome) (txHash : String) :
      CacheStep m (monitorTransaction o txHash m)
  | clear (m : TxCache) : CacheStep m (clearTransactionHistory m)

/-- Caches reachable from the empty map by `BlockchainManager` operations. -/
inductive CacheReachable : TxCache → Prop where
  | init : CacheReachable emptyCache
  | step (m m' : TxCache) : CacheReachable m → CacheStep m m' → CacheReachable m'

theorem cache_pending_zero {m : TxCache} (hm : CacheReachable m) :
    ∀ h st, m h = some st → st.status = .pending → st.confirmations = 0 := by
  induction hm with
  | init =>
    intro h st hst _
    exact absurd hst (by simp [emptyCache])
  | step m m' _ hcs ih =>
    cases hcs with
    | record h =>
      intro h' st' hst' hp
      unfold recordSubmission at hst'
      by_cases hh : h' = h
      · subst hh
        rw [Function.update_same] at hst'
        injection hst' with hst'
        subst hst'
        rfl
      · rw [Function.update_noteq hh] at hst'
        exact ih h' st' hst' hp
    | monitor o h =>
      intro h' st' hst' hp
      cases o with
      | noProvider => exact ih h' st' hst' hp
      | txNotFound => exact ih h' st' hst' hp
      | getTxError =>
        unfold monitorTransaction at hst'
        dsimp only at hst'
        by_cases hh : h' = h
        · subst hh
          rw [Function.update_same] at hst'
          injection hst' with hst'
          subst hst'
          exact absurd hp (by simp)
        · rw [Function.update_noteq hh] at hst'
          exact ih h' st' hst' hp
      | waitError =>
        unfold monitorTransaction at hst'
        dsimp only at hst'
        by_cases hh : h' = h
        · subst hh
          rw [Function.update_same] at hst'
          injection hst' with hst'
          subst hst'
          exact absurd hp (by simp)
        · rw [Function.update_noteq hh] at hst'
          exact ih h' st' hst' hp
      | mined r ch =>
        unfold monitorTransaction at hst'
        dsimp only at hst'
        by_cases hh : h' = h
        · subst hh
          rw [Function.update_same] at hst'
          injection hst' with hst'
          subst hst'
          have hp' : (if r.status = 1 then TxState.confirmed else TxState.failed) =
              TxState.pending := hp
          split at hp' <;> simp at hp'
        · rw [Function.update_noteq hh] at hst'
          exact ih h' st' hst' hp
    | clear =>
      intro h' st' hst' _
      exact absurd hst' (by simp [clearTransactionHistory])

/-- C4 counterexample: after one `monitorTransaction` records the terminal
status Confirmed with 3 confirmations, a later invocation changes it — a
healthy refresh at a higher current height rewrites `confirmations` to 5,
and an erroring refresh overwrites the Confirmed status with Failed and 0
confirmations — so a terminal status is neither frozen nor regression-safe. -/
theorem terminal_status_not_frozen_cex :
    (getTransactionStatus (monitorTransaction (.mined ⟨1, 5, 21000, none⟩ 7) "0xab"
        (recordSubmission emptyCache "0xab")) "0xab").map TransactionStatus.status =
      some .confirmed ∧
    (getTransactionStatus (monitorTransaction (.mined ⟨1, 5, 21000, none⟩ 7) "0xab"
        (recordSubmission emptyCache "0xab")) "0xab").map
        TransactionStatus.confirmations = some 3 ∧
    (getTransactionStatus (monitorTransaction (.mined ⟨1, 5, 21000, none⟩ 9) "0xab"
        (monitorTransaction (.mined ⟨1, 5, 21000, none⟩ 7) "0xab"
          (recordSubmission emptyCache "0xab"))) "0xab").map
        TransactionStatus.confirmations = some 5 ∧
    (getTransactionStatus (monitorTransaction .waitError "0xab"
        (monitorTransaction (.mined ⟨1, 5, 21000, none⟩ 7) "0xab"
          (recordSubmission emptyCache "0xab"))) "0xab").map
        TransactionStatus.status = some .failed ∧
    (getTransactionStatus (monitorTransaction .waitError "0xab"
        (monitorTransaction (.mined ⟨1, 5, 21000, none⟩ 7) "0xab"
          (recordSubmission emptyCache "0xab"))) "0xab").map
        TransactionStatus.confirmations = some 0 := by
  decide

/-- C4 amended: in every reachable cache every Pending entry has 0
confirmations (so the confirmation count observed while Pending is
trivially non-decreasing), and no `monitorTransaction` invocation ever
writes a Pending status — for the monitored handle it either leaves the
entry untouched or stores a terminal (Confirmed or Failed) status; a
terminal status is however not frozen: a later invocation may overwrite it
(see the counterexample). -/
theorem pending_zero_and_no_pending_writes (m : TxCache) (hm : CacheReachable m) :
    (∀ h st, getTransactionStatus m h = some st → st.status = .pending →
      st.confirmations = 0) ∧
    (∀ o h, (monitorTransaction o h m) h = m h ∨
      ∃ st, (monitorTransaction o h m) h = some st ∧ st.status ≠ .pending) := by
  refine ⟨cache_pending_zero hm, ?_⟩
  intro o h
  cases o with
  | noProvider => exact Or.inl rfl
  | txNotFound => exact Or.inl rfl
  | getTxError =>
    refine Or.inr ⟨{ hash := h, status := .failed, confirmations := 0 }, ?_, by simp⟩
    unfold monitorTransaction
    dsimp only
    rw [Function.update_same]
  | waitError =>
    refine Or.inr ⟨{ hash := h, status := .failed, confirmations := 0 }, ?_, by simp⟩
    unfold monitorTransaction
    dsimp only
    rw [Function.update_same]
  | mined r ch =>
    refine Or.inr ⟨{ hash := h,
                     status := if r.status = 1 then .confirmed else .failed,
                     confirmations := (ch : Int) - (r.blockNumber : Int) + 1,
                     gasUsed := some (toString r.gasUsed),
                     effectiveGasPrice := r.gasPrice.map toString,
                     blockNumber := some r.blockNumber }, ?_, ?_⟩
    · unfold monitorTransaction
      dsimp only
      rw [Function.update_same]
    · dsimp only
      split <;> simp

/-- Witness for the amended C4 at a concrete reachable cache. -/
theorem pending_zero_and_no_pending_writes_witness :
    (submittedStatus "0xab").confirmations = 0 :=
  (pending_zero_and_no_pending_writes (recordSubmission emptyCache "0xab")
      (CacheReachable.step emptyCache (recordSubmission emptyCache "0xab")
        CacheReachable.init (CacheStep.record emptyCache "0xab"))).1
    "0xab" (submittedStatus "0xab") rfl rfl

/-- C5 counterexample: a handle whose cached status is Pending is set to
Failed (confirmations 0) when the poll itself errors, although the ledger
reported no terminal outcome — the status is not left Pending as claimed. -/
theorem poll_error_sets_failed_cex :
    (getTransactionStatus (recordSubmission emptyCache "0xab") "0xab").map
      TransactionStatus.status = some .pending ∧
    (getTransactionStatus (monitorTransaction .waitError "0xab"
        (recordSubmission emptyCache "0xab")) "0xab").map TransactionStatus.status =
      some .failed := by
  decide

/-- C5 amended: when an awaited call of the poll throws (transaction lookup
or receipt wait), the catch block of `monitorTransaction` stores a Failed
status with 0 confirmations for the handle — it does not leave the cached
status Pending; only the two non-throwing early returns (provider absent,
transaction not found) leave the cache untouched. -/
theorem poll_error_writes_failed (m : TxCache) (h : String) :
    getTransactionStatus (monitorTransaction .waitError h m) h =
      some { hash := h, status := .failed, confirmations := 0 } ∧
    getTransactionStatus (monitorTransaction .getTxError h m) h =
      some { hash := h, status := .failed, confirmations := 0 } ∧
    getTransactionStatus (monitorTransaction .noProvider h m) h = m h ∧
    getTransactionStatus (monitorTransaction .txNotFound h m) h = m h := by
  refine ⟨?_, ?_, rfl, rfl⟩ <;>
  · unfold getTransactionStatus monitorTransaction
    dsimp only
    rw [Function.update_same]

/-- C6: when the poll observes the mined receipt at inclusion height
`r.blockNumber` with current height `ch`, the stored terminal status has
`confirmations = ch - r.blockNumber + 1`, is Confirmed exactly on reported
execution success (`receipt.status = 1`) and Failed on revert. -/
theorem mined_confirmations_formula (r : Receipt) (ch : Nat) (h : String)
    (m : TxCache) (st : TransactionStatus)
    (hst : getTransactionStatus (monitorTransaction (.mined r ch) h m) h = some st) :
    st.confirmations = (ch : Int) - (r.blockNumber : Int) + 1 ∧
    (r.status = 1 → st.status = .confirmed) ∧
    (r.status ≠ 1 → st.status = .failed) ∧
    st.blockNumber = some r.blockNumber := by
  unfold getTransactionStatus monitorTransaction at hst
  dsimp only at hst
  rw [Function.update_same] at hst
  injection hst with hst
  subst hst
  refine ⟨rfl, ?_, ?_, rfl⟩
  · intro h1
    dsimp only
    rw [if_pos h1]
  · intro h1
    dsimp only
    rw [if_neg h1]

/-- Witness for C6 at a concrete receipt (included at height 5, success,
current height 7): 3 confirmations. -/
theorem mined_confirmations_formula_witness :
    ({ hash := "0xab", status := .confirmed, confirmations := 3,
       gasUsed := some "21000", effectiveGasPrice := none,
       blockNumber := some 5 } : TransactionStatus).confirmations =
      ((7 : Nat) : Int) - ((5 : Nat) : Int) + 1 :=
  (mined_confirmations_formula ⟨1, 5, 21000, none⟩ 7 "0xab" emptyCache
    { hash := "0xab", status := .confirmed, confirmations := 3,
      gasUsed := some "21000", effectiveGasPrice := none,
      blockNumber := some 5 } (by decide)).1

/-- C8 counterexample: with a monitor already active for the handle (its
Pending entry is in the cache, as `submitProofToBlockchain` records before
starting the first monitor), a second `monitorTransaction` call does not
attach to the existing poll: it performs its own receipt wait
(`monitorWaitCount = 1`, not 0) and writes the handle's entry itself. -/
theorem monitor_second_call_polls_cex :
    monitorWaitCount (.mined ⟨1, 5, 21000, none⟩ 7) = 1 ∧
    getTransactionStatus (recordSubmission emptyCache "0xab") "0xab" =
      some (submittedStatus "0xab") ∧
    monitorTransaction (.mined ⟨1, 5, 21000, none⟩ 7) "0xab"
        (recordSubmission emptyCache "0xab") "0xab" ≠
      recordSubmission emptyCache "0xab" "0xab" := by
  decide

/-- C8 amended: `monitorTransaction` consults no active-monitor registry:
for any prior cache contents the invocation either leaves the handle's
entry untouched (in both caches) or writes the same outcome-determined
status to both; entries of other handles are never touched; and every
invocation that reaches the mined receipt performed its own receipt wait.
At most one poller per handle holds only in the weak sense that
`submitProofToBlockchain` starts exactly one monitor per submitted hash. -/
theorem monitor_cache_independent (o : PollOutcome) (h : String)
    (m₁ m₂ : TxCache) :
    (((monitorTransaction o h m₁) h = m₁ h ∧
      (monitorTransaction o h m₂) h = m₂ h) ∨
      (monitorTransaction o h m₁) h = (monitorTransaction o h m₂) h) ∧
    (∀ h', h' ≠ h → (monitorTransaction o h m₁) h' = m₁ h') ∧
    (∀ r ch, monitorWaitCount (.mined r ch) = 1) := by
  refine ⟨?_, ?_, fun r ch => rfl⟩
  · cases o with
    | noProvider => exact Or.inl ⟨rfl, rfl⟩
    | txNotFound => exact Or.inl ⟨rfl, rfl⟩
    | getTxError =>
      right
      unfold monitorTransaction
      dsimp only
      rw [Function.update_same, Function.update_same]
    | waitError =>
      right
      unfold monitorTransaction
      dsimp only
      rw [Function.update_same, Function.update_same]
    | mined r ch =>
      right
      unfold monitorTransaction
      dsimp only
      rw [Function.update_same, Function.update_same]
  · intro h' hne
    cases o with
    | noProvider => rfl
    | txNotFound => rfl
    | getTxError =>
      unfold monitorTransaction
      dsimp only
      rw [Function.update_noteq hne]
    | waitError =>
      unfold monitorTransaction
      dsimp only
      rw [Function.update_noteq hne]
    | mined r ch =>
      unfold monitorTransaction
      dsimp only
      rw [Function.update_noteq hne]

/-- Witness for the amended C8: an entry of another handle is untouched. -/
theorem monitor_cache_independent_witness :
    monitorTransaction .waitError "0xab" emptyCache "0xcd" = emptyCache "0xcd" :=
  (monitor_cache_independent .waitError "0xab" emptyCache emptyCache).2.1
    "0xcd" (by decide)

/-- C10: after `clearTransactionHistory()`, `getTransactionStatus` returns
null for every handle, whatever the previous cache held — including
terminal statuses. -/
theorem clear_then_getStatus_none (m : TxCache) (h : String) :
    getTransactionStatus (clearTransactionHistory m) h = none := rfl
